import Mathlib

/-!
Shallow embedding of the HackNet teammate-recommendation core
(`app/model/cos_sim.py`) together with the result-filtering step of its
caller (`app/routers/matches.py`).

Profiles reaching `get_recommendations` are produced by
`schemas.UserInfoResponse.model_dump()` (see `app/utils.py`), so every
record carries exactly the fourteen keys of `UserInfoResponse`, in
declaration order; `id`/`userId` are UUID objects (never strings) and the
remaining optional fields are `None` or `str` / `list[str]`.  A pandas cell
is therefore one of: NaN/None, a number, a string, a UUID, or a list of
strings; `Cell` mirrors that.  UUIDs are modelled as naturals.

Python-level failures that the pipeline can actually raise on such inputs
are modelled with `Except PyErr`:
  * `typeError`    — `MultiLabelBinarizer.fit_transform` over a column
                     containing a non-list (e.g. `None`) tag value;
  * `valueError`   — `sklearn` `cosine_similarity` rejecting an input
                     matrix containing NaN (or a non-numeric object);
  * `unboundLocal` — `reference_columns` read at line 305 of cos_sim.py
                     without ever being assigned (the line 291 loop body
                     never ran because every aligned table is `None`);
  * `indexError`   — `matching_row['id'].values[0]` on an empty selection;
  * `attributeError` — `.drop` called on `None` (vectorize of an empty
                     user frame; unreachable, the user frame has one row).
-/

set_option allowUnsafeReducibility true in
attribute [semireducible] Rat.mul Rat.add Rat.sub Rat.inv Rat.ofScientific

/-- ASCII lowercasing of one character (the role/goal/level/tag vocabulary
this pipeline compares is ASCII, where Python `str.lower` acts exactly like
this). -/
def lowerChar (c : Char) : Char :=
  if 65 ≤ c.toNat ∧ c.toNat ≤ 90 then Char.ofNat (c.toNat + 32) else c

/-- Python `str.lower()`. -/
def strLower (s : String) : String :=
  ⟨s.data.map lowerChar⟩

instance [DecidableEq ε] [DecidableEq α] : DecidableEq (Except ε α) := fun x y =>
  match x, y with
  | .error a, .error b =>
    if h : a = b then .isTrue (by rw [h]) else .isFalse (fun hh => by cases hh; exact h rfl)
  | .error _, .ok _ => .isFalse (fun hh => by cases hh)
  | .ok _, .error _ => .isFalse (fun hh => by cases hh)
  | .ok a, .ok b =>
    if h : a = b then .isTrue (by rw [h]) else .isFalse (fun hh => by cases hh; exact h rfl)

/-- A pandas cell as it occurs in this pipeline: NaN/None, a numeric value
(floats are modelled exactly, as rationals), a string, a UUID or a list of
strings. -/
inductive Cell where
  | na : Cell
  | num (q : ℚ) : Cell
  | str (s : String) : Cell
  | uuid (n : ℕ) : Cell
  | strList (l : List String) : Cell
deriving DecidableEq, Repr

/-- Errors the Python code can raise on inputs of the shapes produced by
`schemas.UserInfoResponse`. -/
inductive PyErr where
  | typeError : PyErr
  | valueError : PyErr
  | unboundLocal : PyErr
  | indexError : PyErr
  | attributeError : PyErr
deriving DecidableEq, Repr

/-- One record of `schemas.UserInfoResponse` (the dict shape fed to
`get_recommendations` by `utils.recommendation`). -/
structure Profile where
  id : Option ℕ
  userId : ℕ
  name : String
  experienceLevel : Option String
  role1 : Option String
  role2 : Option String
  primaryLanguages : Option (List String)
  secondaryLanguages : Option (List String)
  school : Option String
  goal : Option String
  note : Option String
  trait : Option String
  discordLink : Option String
  imageLink : Option String
deriving DecidableEq, Repr

instance : Inhabited Profile :=
  ⟨{ id := none, userId := 0, name := "", experienceLevel := none, role1 := none,
     role2 := none, primaryLanguages := none, secondaryLanguages := none,
     school := none, goal := none, note := none, trait := none,
     discordLink := none, imageLink := none }⟩

/-- A pandas DataFrame: a list of column labels and one list of cells per
row (cells are addressed positionally through `cols`). -/
structure Table where
  cols : List String
  rows : List (List Cell)
deriving DecidableEq, Repr

def optStr : Option String → Cell
  | some s => .str s
  | none => .na

def optList : Option (List String) → Cell
  | some l => .strList l
  | none => .na

def optId : Option ℕ → Cell
  | some n => .uuid n
  | none => .na

/-- Column order of `pd.DataFrame([user])`: the key order of the
`UserInfoResponse` dict. -/
def profileCols : List String :=
  ["id", "userId", "name", "experienceLevel", "role1", "role2",
   "primaryLanguages", "secondaryLanguages", "school", "goal", "note",
   "trait", "discordLink", "imageLink"]

def Profile.toRow (p : Profile) : List Cell :=
  [optId p.id, .uuid p.userId, .str p.name, optStr p.experienceLevel,
   optStr p.role1, optStr p.role2, optList p.primaryLanguages,
   optList p.secondaryLanguages, optStr p.school, optStr p.goal,
   optStr p.note, optStr p.trait, optStr p.discordLink, optStr p.imageLink]

/-- The DataFrame a list of profile dicts is concatenated into
(lines 240-250 build it row by row with `pd.concat`). -/
def toTable (ps : List Profile) : Table :=
  ⟨profileCols, ps.map Profile.toRow⟩

/-- `to_lowercase` (cos_sim.py lines 207-215): strings are lowercased,
lists elementwise, anything else (UUIDs, NaN, numbers) is unchanged. -/
def to_lowercase : Cell → Cell
  | .str s => .str (strLower s)
  | .strList l => .strList (l.map strLower)
  | x => x

/-- `DataFrame.applymap(to_lowercase)`. -/
def Table.lowerAll (t : Table) : Table :=
  ⟨t.cols, t.rows.map (List.map to_lowercase)⟩

/-- First cell paired with label `c` (pandas label-based access on a row
whose labels are `pairs.map Prod.fst`). -/
def lookupCell : List (String × Cell) → String → Option Cell
  | [], _ => none
  | (c', x) :: rest, c => if c' = c then some x else lookupCell rest c

/-- `DataFrame.drop(columns=cs, errors='ignore')`. -/
def Table.dropCols (t : Table) (cs : List String) : Table :=
  ⟨t.cols.filter (fun c => decide (c ∉ cs)),
   t.rows.map (fun r =>
     ((t.cols.zip r).filter (fun p => decide (p.1 ∉ cs))).map Prod.snd)⟩

/-- Apply `f` to the cells of column `c`, other columns unchanged
(`df[c] = df[c].map f` / `df[c] *= w`). -/
def Table.mapCol (t : Table) (c : String) (f : Cell → Cell) : Table :=
  ⟨t.cols,
   t.rows.map (fun r =>
     (t.cols.zip r).map (fun p => if p.1 = c then f p.2 else p.2))⟩

/-- The cells of column `c`. -/
def Table.col (t : Table) (c : String) : List Cell :=
  t.rows.map (fun r => (lookupCell (t.cols.zip r) c).getD .na)

/-- Lexicographic comparison of code-point sequences (how Python compares
strings). -/
def charsLe : List Char → List Char → Bool
  | [], _ => true
  | _ :: _, [] => false
  | c :: cs, d :: ds =>
    if c.toNat = d.toNat then charsLe cs ds
    else decide (c.toNat < d.toNat)

def strLe (a b : String) : Prop :=
  charsLe a.data b.data = true

instance : DecidableRel strLe := fun a b => by
  unfold strLe
  infer_instance

/-- Python `sorted` on strings (lexicographic by code point). -/
def sortStr (l : List String) : List String :=
  List.insertionSort strLe l

/-- `sorted(set(l))`: the distinct elements in increasing order. -/
def sortDedup (l : List String) : List String :=
  (sortStr l).dedup

/-- `experience_map = {'beginner': 1, 'intermediate': 2, 'expert': 3}`;
`Series.map` sends every non-key (including `None`) to NaN. -/
def expMapCell : Cell → Cell
  | .str "beginner" => .num 1
  | .str "intermediate" => .num 2
  | .str "expert" => .num 3
  | _ => .na

/-- Distinct string values of a column, sorted — the dummy-column universe
`pd.get_dummies` derives for one categorical column (NaN contributes no
column). -/
def strVals (cells : List Cell) : List String :=
  sortDedup (cells.filterMap fun x =>
    match x with
    | .str s => some s
    | _ => none)

/-- Distinct tag strings over a column of tag lists, sorted — the
`MultiLabelBinarizer.classes_` universe. -/
def listVals (cells : List Cell) : List String :=
  sortDedup (cells.flatMap fun x =>
    match x with
    | .strList l => l
    | _ => [])

def isStrList : Cell → Bool
  | .strList _ => true
  | _ => false

/-- The columns `vectorize` one-hot encodes. -/
def catCols : List String := ["role2", "goal", "trait"]

/-- The columns removed from the encoded frame: the categorical columns
(consumed by `get_dummies`) and the two tag-list columns (dropped at the
`pd.concat`, line 58). -/
def encodedAway : List String :=
  ["role2", "goal", "trait", "primaryLanguages", "secondaryLanguages"]

/-- The two multi-hot namespaces: column name prefix and source column. -/
def langSpecs : List (String × String) :=
  [("primary_", "primaryLanguages"), ("secondary_", "secondaryLanguages")]

/-- Row restricted to the labels not in `cs`, in original order. -/
def dropRow (cols : List String) (cs : List String) (r : List Cell) : List Cell :=
  ((cols.zip r).filter (fun p => decide (p.1 ∉ cs))).map Prod.snd

/-- Dummy column labels of `pd.get_dummies(df, columns=catCols)`:
per categorical column, one `col_value` label per distinct observed value,
dummy groups appended in `catCols` order, each group sorted by value. -/
def dummyColsFor (t : Table) : List String :=
  catCols.flatMap fun c => (strVals (t.col c)).map (fun v => c ++ "_" ++ v)

/-- Dummy cells of one row: 1 in the column of the row's value, else 0
(a NaN value yields an all-zero group). -/
def dummyCellsFor (t : Table) (r : List Cell) : List Cell :=
  catCols.flatMap fun c =>
    (strVals (t.col c)).map fun v =>
      if lookupCell (t.cols.zip r) c = some (.str v) then .num 1 else .num 0

/-- Multi-hot column labels: `primary_tag` / `secondary_tag` per distinct
tag observed in the respective column. -/
def langColsFor (t : Table) : List String :=
  langSpecs.flatMap fun pc => (listVals (t.col pc.2)).map (fun v => pc.1 ++ v)

/-- Multi-hot cells of one row: 1 for each tag present in the row's list. -/
def langCellsFor (t : Table) (r : List Cell) : List Cell :=
  langSpecs.flatMap fun pc =>
    (listVals (t.col pc.2)).map fun v =>
      match lookupCell (t.cols.zip r) pc.2 with
      | some (.strList l) => if v ∈ l then .num 1 else .num 0
      | _ => .num 0

/-- The encoded row `vectorize` produces for one input row. -/
def vecRow (t : Table) (r : List Cell) : List Cell :=
  dropRow t.cols encodedAway r ++ dummyCellsFor t r ++ langCellsFor t r

/-- `vectorize` (cos_sim.py lines 17-67).  An empty frame yields
`None` (Python `return None`).  Otherwise `experienceLevel` is mapped
through `experience_map` (unknown/absent becomes NaN), `role2`/`goal`/
`trait` are one-hot encoded over the values observed in this table, and
the two tag-list columns are multi-hot encoded over the tags observed in
this table; `MultiLabelBinarizer` raises `TypeError` if a tag cell is not
a list. -/
def vectorize (info : Table) : Except PyErr (Option Table) :=
  if info.rows = [] then .ok none
  else
    let te := info.mapCol "experienceLevel" expMapCell
    if (te.col "primaryLanguages").all isStrList &&
       (te.col "secondaryLanguages").all isStrList then
      .ok (some ⟨(te.cols.filter (fun c => decide (c ∉ encodedAway)))
                   ++ dummyColsFor te ++ langColsFor te,
                 te.rows.map (vecRow te)⟩)
    else .error .typeError

/-- All labels appearing in some (non-`None`) table (`align_columns`
accumulates their set; only membership matters, the set is sorted before
use). -/
def colsConcat (tables : List (Option Table)) : List String :=
  tables.flatMap fun t? =>
    match t? with
    | some t => t.cols
    | none => []

/-- Add every missing label with value 0, then `reindex` to `cs`:
the resulting frame has exactly the labels `cs`, existing cells kept,
missing cells 0, labels not in `cs` dropped. -/
def reindexFill (t : Table) (cs : List String) : Table :=
  ⟨cs, t.rows.map (fun r =>
    cs.map (fun c => (lookupCell (t.cols.zip r) c).getD (.num 0)))⟩

/-- `align_columns` (cos_sim.py lines 70-110): `None` tables pass through;
every other table gains the union of all observed labels (missing values
0) reindexed into sorted order. -/
def align_columns (tables : List (Option Table)) : List (Option Table) :=
  let all := sortDedup (colsConcat tables)
  tables.map (Option.map (fun t => reindexFill t all))

/-- `align_single_user` (cos_sim.py lines 113-141): missing reference
labels added as 0, then reindexed to `sorted(reference_columns)` (labels
outside the reference set are dropped by the reindex). -/
def align_single_user (user_vector : Table) (reference_columns : List String) : Table :=
  reindexFill user_vector (sortStr reference_columns)

/-- The goal-dependent weight of `compare_cos_sim` (lines 164-169);
the goal cell was lowercased with the rest of the user frame. -/
def goalWeight (user_goal : Cell) : ℚ :=
  if user_goal = .str "win hackathon" then 2
  else if user_goal = .str "gain experience" then 3 / 2
  else 1

/-- The identifier columns excluded from the similarity computation
(`id_columns`, line 172). -/
def id_columns : List String := ["id", "userId", "name", "role1"]

/-- `column *= w` on a numeric cell; NaN stays NaN (`NaN * w = NaN`). -/
def mulCell (w : ℚ) : Cell → Cell
  | .num q => .num (q * w)
  | x => x

/-- The exact value of a float cosine-similarity score: `d` the dot
product of the two rows, `a` and `b` their squared norms. -/
structure SimScore where
  d : ℚ
  a : ℚ
  b : ℚ
deriving DecidableEq, Repr

def dotp (u v : List ℚ) : ℚ :=
  (List.zipWith (· * ·) u v).sum

def mkSim (u v : List ℚ) : SimScore :=
  ⟨dotp u v, dotp u u, dotp v v⟩

/-- The real number a `SimScore` denotes.  `sklearn.cosine_similarity`
normalizes each row, substituting norm 1 for a zero norm, so a zero row
scores 0 rather than raising. -/
noncomputable def scoreVal (s : SimScore) : ℝ :=
  if s.a = 0 ∨ s.b = 0 then 0
  else (s.d : ℝ) / (Real.sqrt (s.a : ℝ) * Real.sqrt (s.b : ℝ))

/-- Comparison of two scores by their real values (for the nonnegative
feature rows this pipeline produces, `d ≥ 0`, and the comparison of
`d / (√a · √b)` values reduces to the cross-multiplied squares). -/
def simLE (s t : SimScore) : Bool :=
  if s.a * s.b = 0 then true
  else if t.a * t.b = 0 then decide (s.d = 0)
  else decide (s.d ^ 2 * (t.a * t.b) ≤ t.d ^ 2 * (s.a * s.b))

def getNum : Cell → ℚ
  | .num q => q
  | _ => 0

def allNum (t : Table) : Bool :=
  t.rows.all (fun r => r.all (fun x => match x with | .num _ => true | _ => false))

/-- The `id_frame` row (line 177): the four identifier cells of a row. -/
def idRow (t : Table) (r : List Cell) : List Cell :=
  id_columns.map (fun c => (lookupCell (t.cols.zip r) c).getD .na)

/-- One row of a per-bucket `sorted_table`: its similarity score, its
(weighted) feature cells, and its identifier cells. -/
structure ScoredRow where
  score : SimScore
  feats : List Cell
  ids : List Cell
deriving DecidableEq, Repr

/-- Score and sort one bucket table against the (already-mutated) user
vector `uv` (body of the `for key, vec_table in vec_tables.items()` loop,
lines 176-200, after the two `*=` weightings). -/
def scoreBucket (uv : Table) (t : Table) (w : ℚ) : Except PyErr (List ScoredRow) :=
  let featsW := (t.dropCols id_columns).mapCol "experienceLevel" (mulCell w)
  let userFeats := uv.dropCols id_columns
  if allNum userFeats && allNum featsW then
    let urow := (userFeats.rows.getD 0 []).map getNum
    let scored := (featsW.rows.zip (t.rows.map (idRow t))).map fun pr =>
      ({ score := mkSim urow (pr.1.map getNum), feats := pr.1, ids := pr.2 } : ScoredRow)
    .ok (List.insertionSort (fun x y => simLE x.score y.score = true) scored)
  else .error .valueError

/-- `compare_cos_sim` (cos_sim.py lines 144-204).  The fold carries the
user vector because line 185 multiplies `user_vector['experienceLevel']`
in place on every iteration whose table is not `None`: later buckets see
a user vector whose experience level has been multiplied several times. -/
def goCompare (w : ℚ) (uv : Table) :
    List (String × Option Table) → Except PyErr (List (String × Option (List ScoredRow)))
  | [] => .ok []
  | (k, none) :: rest =>
    match goCompare w uv rest with
    | .error e => .error e
    | .ok res => .ok ((k, none) :: res)
  | (k, some t) :: rest =>
    let uv' := uv.mapCol "experienceLevel" (mulCell w)
    match scoreBucket uv' t w with
    | .error e => .error e
    | .ok sorted_table =>
      match goCompare w uv' rest with
      | .error e => .error e
      | .ok res => .ok ((k, some sorted_table) :: res)

def compare_cos_sim (user_vector : Table) (vec_tables : List (String × Option Table))
    (user_goal : Cell) : Except PyErr (List (String × Option (List ScoredRow))) :=
  goCompare (goalWeight user_goal) user_vector vec_tables

/-- The four bucket keys, in the insertion order of `vec_dict`. -/
def roleNames : List String :=
  ["data science", "back-end", "front-end", "business"]

/-- One step of the bucketing loop (cos_sim.py lines 240-250): the
`elif` chain on the raw — not yet lowercased — `role1` value. -/
def bucketStep (b : List Profile × List Profile × List Profile × List Profile)
    (u : Profile) : List Profile × List Profile × List Profile × List Profile :=
  if u.role1 = some "data science" then (b.1 ++ [u], b.2.1, b.2.2.1, b.2.2.2)
  else if u.role1 = some "back-end" then (b.1, b.2.1 ++ [u], b.2.2.1, b.2.2.2)
  else if u.role1 = some "front-end" then (b.1, b.2.1, b.2.2.1 ++ [u], b.2.2.2)
  else if u.role1 = some "business" then (b.1, b.2.1, b.2.2.1, b.2.2.2 ++ [u])
  else b

/-- The role buckets (`data_science`, `backend`, `frontend`, `business`)
in input order; a profile whose raw `role1` matches no canonical value
falls through every branch. -/
def bucketize (allUsers : List Profile) :
    List Profile × List Profile × List Profile × List Profile :=
  allUsers.foldl bucketStep ([], [], [], [])

/-- Columns dropped from the candidate tables before vectorization
(line 268). -/
def drop4 : List String := ["school", "note", "discordLink", "imageLink"]

/-- The lowercased per-role tables (`role_tables`, lines 253-258): buckets
are formed first, on raw values, and only then `applymap(to_lowercase)`d. -/
def loweredTables (allUsers : List Profile) : List Table :=
  [(toTable (bucketize allUsers).1).lowerAll,
   (toTable (bucketize allUsers).2.1).lowerAll,
   (toTable (bucketize allUsers).2.2.1).lowerAll,
   (toTable (bucketize allUsers).2.2.2).lowerAll]

def mapME (f : α → Except ε β) : List α → Except ε (List β)
  | [] => .ok []
  | x :: xs =>
    match f x with
    | .error e => .error e
    | .ok y =>
      match mapME f xs with
      | .error e => .error e
      | .ok ys => .ok (y :: ys)

/-- The `reference_columns` loop (lines 291-293): the columns of the last
non-`None` aligned table, `none` when the loop body never runs (in Python
the variable is then unbound). -/
def refColsOf (ts : List (Option Table)) : Option (List String) :=
  ts.foldl (fun acc t? =>
    match t? with
    | some t => some t.cols
    | none => acc) none

/-- `pd.DataFrame([info]).applymap(to_lowercase)` (line 296). -/
def userTable (info : Profile) : Table :=
  (toTable [info]).lowerAll

/-- `user['goal'].iloc[0]` (line 297), read from the lowercased frame. -/
def userGoal (info : Profile) : Cell :=
  (lookupCell ((userTable info).cols.zip ((userTable info).rows.getD 0 []))
    "goal").getD .na

/-- The scoring part of `get_recommendations` (lines 260-313) as a
function of the four lowercased bucket tables and the requester. -/
def scoredOfTables (info : Profile) (lts : List Table) :
    Except PyErr (List (String × Option (List ScoredRow))) :=
  match mapME vectorize (lts.map (fun t => t.dropCols drop4)) with
  | .error e => .error e
  | .ok vts =>
    let ats := align_columns vts
    match vectorize (userTable info) with
    | .error e => .error e
    | .ok none => .error .attributeError
    | .ok (some uvT) =>
      let uvD := uvT.dropCols ["school", "note", "discordLink"]
      match refColsOf ats with
      | none => .error .unboundLocal
      | some reference_columns =>
        compare_cos_sim (align_single_user uvD reference_columns)
          (roleNames.zip ats) (userGoal info)

/-- The sorted, scored per-bucket tables of a recommendation run. -/
def scoredStage (info : Profile) (allUsers : List Profile) :
    Except PyErr (List (String × Option (List ScoredRow))) :=
  scoredOfTables info (loweredTables allUsers)

/-- `matching_row = bucket[bucket['userId'] == id]` followed by
`.values[0]`: the first row of the original (raw-cased) bucket whose
`userId` equals the sorted row's `userId`; an empty selection raises
`IndexError`. -/
def reconstructRow (bucket : List Profile) (uid : Cell) : Except PyErr Profile :=
  match bucket.filter (fun p => decide (Cell.uuid p.userId = uid)) with
  | [] => .error .indexError
  | p :: _ => .ok p

/-- The output loop body for one bucket (lines 318-356): a `None` table
contributes `[]`; otherwise each sorted row is re-attached to the full
original profile matching its `userId` column (`row['userId']` is the
second of the four identifier cells). -/
def reconstructBucket (bucket : List Profile) :
    Option (List ScoredRow) → Except PyErr (List Profile)
  | none => .ok []
  | some rows => mapME (fun r => reconstructRow bucket (r.ids.getD 1 .na)) rows

/-- Which original bucket DataFrame the output loop reads for a given
role key (the `if role == ...` chain, lines 325-332). -/
def bucketFor (k : String)
    (bks : List Profile × List Profile × List Profile × List Profile) : List Profile :=
  if k = "data science" then bks.1
  else if k = "back-end" then bks.2.1
  else if k = "front-end" then bks.2.2.1
  else bks.2.2.2

/-- `get_recommendations` (cos_sim.py lines 229-358). -/
def get_recommendations (info : Profile) (allUsers : List Profile) :
    Except PyErr (List Profile × List Profile × List Profile × List Profile) :=
  if allUsers = [] then .ok ([], [], [], [])
  else
    match scoredStage info allUsers with
    | .error e => .error e
    | .ok sc =>
      match mapME (fun pr => reconstructBucket (bucketFor pr.1 (bucketize allUsers)) pr.2) sc with
      | .error e => .error e
      | .ok outs => .ok (outs.getD 0 [], outs.getD 1 [], outs.getD 2 [], outs.getD 3 [])

/-- One bucket's filter comprehension of `get_possible_matches`
(`app/routers/matches.py` line 41):
`[userInfo for userInfo in q if userInfo.userId not in existingMatches]`.
The elements of `q` are the plain `dict`s built literally at cos_sim.py
lines 334-351 (not pydantic models), and attribute access `.userId` on a
`dict` raises `AttributeError` — before `existingMatches` is ever
consulted — so the comprehension completes only on an empty bucket. -/
def filterMatched (_existingMatches : List ℕ) (q : List Profile) :
    Except PyErr (List Profile) :=
  match q with
  | [] => .ok []
  | _ :: _ => .error .attributeError

/-- `get_possible_matches` (matches.py lines 17-52) after the database
reads: recommendations for the current user over all stored profiles,
then the four filter comprehensions of lines 41-44, evaluated in source
order (the first non-empty bucket raises).  When all four succeed every
bucket was empty, so the `model_validate(vars(user))` comprehensions of
lines 47-52 iterate nothing and the handler returns four empty lists. -/
def get_possible_matches (currentUserInfo : Profile) (users_info : List Profile)
    (existingMatches : List ℕ) :
    Except PyErr (List Profile × List Profile × List Profile × List Profile) :=
  match get_recommendations currentUserInfo users_info with
  | .error e => .error e
  | .ok (q1, q2, q3, q4) =>
    match filterMatched existingMatches q1 with
    | .error e => .error e
    | .ok dataScience =>
      match filterMatched existingMatches q2 with
      | .error e => .error e
      | .ok backend =>
        match filterMatched existingMatches q3 with
        | .error e => .error e
        | .ok frontend =>
          match filterMatched existingMatches q4 with
          | .error e => .error e
          | .ok business => .ok (dataScience, backend, frontend, business)

/-! ### Derived definitions used in the verification layer -/

/-- The raw (pre-lowercasing) primary-role test of the bucketing loop. -/
def roleIs (s : String) (u : Profile) : Bool :=
  decide (u.role1 = some s)

/-- A profile with every string-valued field (and every string inside the
tag lists) lowercased — the record-level effect of `applymap(to_lowercase)`
on a profile row. -/
def lowerProfile (p : Profile) : Profile :=
  { id := p.id, userId := p.userId, name := strLower p.name,
    experienceLevel := p.experienceLevel.map strLower, role1 := p.role1.map strLower,
    role2 := p.role2.map strLower,
    primaryLanguages := p.primaryLanguages.map (List.map strLower),
    secondaryLanguages := p.secondaryLanguages.map (List.map strLower),
    school := p.school.map strLower, goal := p.goal.map strLower,
    note := p.note.map strLower, trait := p.trait.map strLower,
    discordLink := p.discordLink.map strLower, imageLink := p.imageLink.map strLower }

/-! ### Sample profiles for concrete runs -/

def sampleProfile (uid : ℕ) (exp r1 r2 goal : Option String) (pl sl : List String) : Profile :=
  { id := some uid, userId := uid, name := "N", experienceLevel := exp, role1 := r1,
    role2 := r2, primaryLanguages := some pl, secondaryLanguages := some sl,
    school := some "S", goal := goal, note := none, trait := none,
    discordLink := none, imageLink := none }

def reqProfile : Profile :=
  sampleProfile 100 (some "intermediate") (some "back-end") (some "a")
    (some "win hackathon") ["p"] []

def candBackEnd : Profile :=
  sampleProfile 1 (some "expert") (some "back-end") (some "a") none ["p"] []

def candDataSci : Profile :=
  sampleProfile 2 (some "beginner") (some "data science") (some "a") none ["p"] []

def candDesigner : Profile :=
  sampleProfile 3 (some "expert") (some "designer") (some "a") none ["p"] []

def candNovice : Profile :=
  sampleProfile 4 (some "novice") (some "back-end") (some "a") none ["p"] []

def candCased : Profile :=
  sampleProfile 5 (some "expert") (some "Back-End") (some "a") none ["P"] []

def candUncased : Profile :=
  { candCased with role1 := some "back-end", primaryLanguages := some ["p"] }

def candTagCased : Profile :=
  { candBackEnd with primaryLanguages := some ["P"], experienceLevel := some "Expert" }

def findBucket : List (String × Option (List ScoredRow)) → String → Option (List ScoredRow)
  | [], _ => none
  | (k, t) :: rest, c => if k = c then t else findBucket rest c

/-- The similarity scores of one bucket of a scoring-stage result. -/
def bucketSims (e : Except PyErr (List (String × Option (List ScoredRow))))
    (k : String) : Option (List SimScore) :=
  match e with
  | .error _ => none
  | .ok sc => (findBucket sc k).map (List.map ScoredRow.score)

/-- The weighted feature row `compare_cos_sim` derives from one aligned
bucket row: identifier columns dropped, experience level multiplied by the
goal weight. -/
def weightedRow (t : Table) (w : ℚ) (r : List Cell) : List Cell :=
  ((t.cols.filter (fun c => decide (c ∉ id_columns))).zip
      (((t.cols.zip r).filter (fun p => decide (p.1 ∉ id_columns))).map Prod.snd)).map
    (fun p => if p.1 = "experienceLevel" then mulCell w p.2 else p.2)

/-- One scored row as a function of the aligned bucket row it came from. -/
def scoredRowOf (t : Table) (w : ℚ) (urow : List ℚ) (r : List Cell) : ScoredRow :=
  { score := mkSim urow ((weightedRow t w r).map getNum),
    feats := weightedRow t w r,
    ids := idRow t r }

/-- The profile the output loop re-attaches for a scored row: the first
bucket profile whose `userId` matches the row's `userId` cell. -/
def recoverB (bucket : List Profile) (r : ScoredRow) : Profile :=
  (bucket.filter (fun p => decide (Cell.uuid p.userId = r.ids.getD 1 .na))).headD default

/-- The per-bucket input table of the vectorizer: bucket rows, lowercased,
with the four pass-through descriptive columns dropped. -/
def vin (B : List Profile) : Table :=
  ((toTable B).lowerAll).dropCols drop4

/-- The column labels of every `vin` table. -/
def vinCols : List String :=
  ["id", "userId", "name", "experienceLevel", "role1", "role2",
   "primaryLanguages", "secondaryLanguages", "goal", "trait"]

/-- One lowercased, descriptive-columns-dropped profile row. -/
def vinRow (p : Profile) : List Cell :=
  [optId p.id, .uuid p.userId, .str (strLower p.name),
   optStr (p.experienceLevel.map strLower), optStr (p.role1.map strLower),
   optStr (p.role2.map strLower),
   optList (p.primaryLanguages.map (List.map strLower)),
   optList (p.secondaryLanguages.map (List.map strLower)),
   optStr (p.goal.map strLower), optStr (p.trait.map strLower)]

/-- `vin` row after the `experienceLevel` remap. -/
def teRow (p : Profile) : List Cell :=
  [optId p.id, .uuid p.userId, .str (strLower p.name),
   expMapCell (optStr (p.experienceLevel.map strLower)), optStr (p.role1.map strLower),
   optStr (p.role2.map strLower),
   optList (p.primaryLanguages.map (List.map strLower)),
   optList (p.secondaryLanguages.map (List.map strLower)),
   optStr (p.goal.map strLower), optStr (p.trait.map strLower)]

/-- The intermediate table `te` of `vectorize` on a bucket input. -/
def teT (B : List Profile) : Table :=
  (vin B).mapCol "experienceLevel" expMapCell

/-- The `userId` column of one bucket's sorted score table, in sorted
order (empty when the bucket was empty or the run failed). -/
def bucketRowIds (info : Profile) (l : List Profile) (k : String) : List Cell :=
  match scoredStage info l with
  | .error _ => []
  | .ok sc => ((findBucket sc k).getD []).map (fun r => r.ids.getD 1 .na)

/-! ### The string order used by `sorted` -/

theorem charsLe_total : ∀ a b : List Char, charsLe a b = true ∨ charsLe b a = true
  | [], _ => .inl rfl
  | _ :: _, [] => .inr rfl
  | c :: cs, d :: ds => by
    by_cases h : c.toNat = d.toNat
    · rcases charsLe_total cs ds with h' | h'
      · left
        simp only [charsLe]
        rw [if_pos h]
        exact h'
      · right
        simp only [charsLe]
        rw [if_pos h.symm]
        exact h'
    · simp only [charsLe]
      rw [if_neg h, if_neg (fun hh => h hh.symm)]
      simp only [decide_eq_true_eq]
      omega

theorem charsLe_trans : ∀ a b c : List Char,
    charsLe a b = true → charsLe b c = true → charsLe a c = true
  | [], _, _, _, _ => rfl
  | _ :: _, [], _, h, _ => by simp [charsLe] at h
  | _ :: _, _ :: _, [], _, h => by simp [charsLe] at h
  | a :: as, b :: bs, c :: cs, h1, h2 => by
    simp only [charsLe] at h1 h2 ⊢
    by_cases hab : a.toNat = b.toNat
    · rw [if_pos hab] at h1
      by_cases hbc : b.toNat = c.toNat
      · rw [if_pos hbc] at h2
        rw [if_pos (hab.trans hbc)]
        exact charsLe_trans as bs cs h1 h2
      · rw [if_neg hbc, decide_eq_true_eq] at h2
        have hac : ¬ a.toNat = c.toNat := by omega
        rw [if_neg hac, decide_eq_true_eq]
        omega
    · rw [if_neg hab, decide_eq_true_eq] at h1
      by_cases hbc : b.toNat = c.toNat
      · have hac : ¬ a.toNat = c.toNat := by omega
        rw [if_neg hac, decide_eq_true_eq]
        omega
      · rw [if_neg hbc, decide_eq_true_eq] at h2
        have hac : ¬ a.toNat = c.toNat := by omega
        rw [if_neg hac, decide_eq_true_eq]
        omega

theorem charsLe_antisymm : ∀ a b : List Char,
    charsLe a b = true → charsLe b a = true → a = b
  | [], [], _, _ => rfl
  | [], _ :: _, _, h => by simp [charsLe] at h
  | _ :: _, [], h, _ => by simp [charsLe] at h
  | a :: as, b :: bs, h1, h2 => by
    by_cases hab : a.toNat = b.toNat
    · have hc : a = b := by
        have h' : Char.ofNat a.toNat = Char.ofNat b.toNat := by rw [hab]
        simpa [Char.ofNat_toNat] using h'
      subst hc
      simp only [charsLe, if_pos rfl] at h1 h2
      rw [charsLe_antisymm as bs h1 h2]
    · have h' : ¬ b.toNat = a.toNat := fun hh => hab hh.symm
      simp only [charsLe, if_neg hab, if_neg h', decide_eq_true_eq] at h1 h2
      omega

instance : IsTotal String strLe :=
  ⟨fun a b => charsLe_total a.data b.data⟩

instance : IsTrans String strLe :=
  ⟨fun a b c => charsLe_trans a.data b.data c.data⟩

instance : IsAntisymm String strLe :=
  ⟨fun a b h1 h2 => by
    cases a with
    | mk da =>
      cases b with
      | mk db => exact congrArg String.mk (charsLe_antisymm da db h1 h2)⟩

theorem mem_sortStr {a : String} {l : List String} : a ∈ sortStr l ↔ a ∈ l :=
  (List.perm_insertionSort strLe l).mem_iff

theorem mem_sortDedup {a : String} {l : List String} : a ∈ sortDedup l ↔ a ∈ l := by
  rw [sortDedup, List.mem_dedup, mem_sortStr]

theorem sortDedup_sorted (l : List String) : List.Sorted strLe (sortDedup l) :=
  List.Pairwise.sublist (List.dedup_sublist _) (List.sorted_insertionSort strLe l)

theorem sortDedup_nodup (l : List String) : (sortDedup l).Nodup :=
  List.nodup_dedup _

theorem sortDedup_congr {l l' : List String} (h : ∀ a, a ∈ l ↔ a ∈ l') :
    sortDedup l = sortDedup l' := by
  apply List.eq_of_perm_of_sorted _ (sortDedup_sorted l) (sortDedup_sorted l')
  rw [List.perm_ext_iff_of_nodup (sortDedup_nodup l) (sortDedup_nodup l')]
  intro a
  rw [mem_sortDedup, mem_sortDedup]
  exact h a

/-! ### Column alignment -/

theorem lookupCell_zip_map : ∀ (cs : List String) (f : String → Cell) (c : String),
    c ∈ cs → lookupCell (cs.zip (cs.map f)) c = some (f c)
  | [], _, _, hc => absurd hc (by simp)
  | c' :: cs, f, c, hc => by
    by_cases h : c' = c
    · subst h
      simp [lookupCell]
    · have hc' : c ∈ cs := by
        rcases List.mem_cons.mp hc with hev | hcs
        · exact absurd hev.symm h
        · exact hcs
      simpa [lookupCell, h] using lookupCell_zip_map cs f c hc' 

theorem reindexFill_idem (t : Table) (cs : List String) :
    reindexFill (reindexFill t cs) cs = reindexFill t cs := by
  unfold reindexFill
  simp only [List.map_map]
  congr 1
  apply List.map_congr_left
  intro r _hr
  simp only [Function.comp]
  apply List.map_congr_left
  intro c hc
  rw [lookupCell_zip_map _ _ _ hc]
  rfl

theorem mem_colsConcat {x : String} {ts : List (Option Table)} :
    x ∈ colsConcat ts ↔ ∃ t : Table, some t ∈ ts ∧ x ∈ t.cols := by
  simp only [colsConcat, List.mem_flatMap]
  constructor
  · rintro ⟨t?, ht, hx⟩
    cases t? with
    | none => cases hx
    | some t => exact ⟨t, ht, hx⟩
  · rintro ⟨t, ht, hx⟩
    exact ⟨some t, ht, hx⟩

/-- C7 helper: aligning does not change which labels occur somewhere. -/
theorem colsConcat_align_mem (ts : List (Option Table)) (x : String) :
    x ∈ colsConcat (align_columns ts) ↔ x ∈ colsConcat ts := by
  unfold align_columns
  rw [mem_colsConcat, mem_colsConcat]
  constructor
  · rintro ⟨u, hu, hx⟩
    rcases List.mem_map.mp hu with ⟨t?, ht, hmap⟩
    cases t? with
    | none => cases hmap
    | some t =>
      have hcols : u.cols = sortDedup (colsConcat ts) := by
        cases hmap
        rfl
      rw [hcols] at hx
      rcases mem_colsConcat.mp (mem_sortDedup.mp hx) with ⟨t', ht', hx'⟩
      exact ⟨t', ht', hx'⟩
  · rintro ⟨t, ht, hx⟩
    refine ⟨reindexFill t (sortDedup (colsConcat ts)), ?_, ?_⟩
    · exact List.mem_map.mpr ⟨some t, ht, rfl⟩
    · exact mem_sortDedup.mpr (mem_colsConcat.mpr ⟨t, ht, hx⟩)

/-- C7: column alignment is idempotent — aligning the output of
`align_columns` returns exactly the same list of tables (same labels, in
the same order, same values; `None` entries still `None`). -/
theorem align_columns_idempotent (ts : List (Option Table)) :
    align_columns (align_columns ts) = align_columns ts := by
  have hall : sortDedup (colsConcat (align_columns ts)) = sortDedup (colsConcat ts) :=
    sortDedup_congr (colsConcat_align_mem ts)
  conv_lhs => rw [align_columns]
  rw [hall]
  show (align_columns ts).map
      (Option.map fun t => reindexFill t (sortDedup (colsConcat ts))) = align_columns ts
  rw [align_columns, List.map_map]
  apply List.map_congr_left
  intro t? _ht
  cases t? with
  | none => rfl
  | some t =>
    show some (reindexFill (reindexFill t _) _) = some (reindexFill t _)
    rw [reindexFill_idem]

/-! ### The bucketizer -/

theorem foldl_bucketStep (l : List Profile) :
    ∀ a b c d : List Profile,
      l.foldl bucketStep (a, b, c, d) =
        (a ++ l.filter (roleIs "data science"), b ++ l.filter (roleIs "back-end"),
         c ++ l.filter (roleIs "front-end"), d ++ l.filter (roleIs "business")) := by
  induction l with
  | nil => intro a b c d; simp
  | cons u l ih =>
    intro a b c d
    by_cases h1 : u.role1 = some "data science"
    · simp only [List.foldl_cons, bucketStep, if_pos h1, ih, List.filter_cons,
        roleIs, h1]
      simp [List.append_assoc]
    · by_cases h2 : u.role1 = some "back-end"
      · simp only [List.foldl_cons, bucketStep, if_neg h1, if_pos h2, ih, List.filter_cons,
          roleIs, h2]
        simp [h2, h1, List.append_assoc]
      · by_cases h3 : u.role1 = some "front-end"
        · simp only [List.foldl_cons, bucketStep, if_neg h1, if_neg h2, if_pos h3, ih,
            List.filter_cons, roleIs]
          simp [h3, h1, h2, List.append_assoc]
        · by_cases h4 : u.role1 = some "business"
          · simp only [List.foldl_cons, bucketStep, if_neg h1, if_neg h2, if_neg h3,
              if_pos h4, ih, List.filter_cons, roleIs]
            simp [h4, h1, h2, h3, List.append_assoc]
          · simp only [List.foldl_cons, bucketStep, if_neg h1, if_neg h2, if_neg h3,
              if_neg h4, ih, List.filter_cons, roleIs]
            simp [h1, h2, h3, h4]

/-- The bucketing loop is exactly the four order-preserving filters on the
raw `role1` value. -/
theorem bucketize_eq (l : List Profile) :
    bucketize l =
      (l.filter (roleIs "data science"), l.filter (roleIs "back-end"),
       l.filter (roleIs "front-end"), l.filter (roleIs "business")) := by
  simpa using foldl_bucketStep l [] [] [] []

/-! ### Cosine similarity bounds -/

theorem dotp_nil_left (v : List ℚ) : dotp [] v = 0 := rfl

theorem dotp_nil_right : ∀ u : List ℚ, dotp u [] = 0
  | [] => rfl
  | _ :: _ => rfl

theorem dotp_cons (x y : ℚ) (u v : List ℚ) :
    dotp (x :: u) (y :: v) = x * y + dotp u v := by
  simp [dotp]

theorem dotp_self_nonneg : ∀ u : List ℚ, 0 ≤ dotp u u
  | [] => le_refl 0
  | x :: u => by
    rw [dotp_cons]
    have h := dotp_self_nonneg u
    nlinarith [mul_self_nonneg x]

/-- Cauchy–Schwarz for the pipeline's dot product. -/
theorem dotp_sq_le : ∀ u v : List ℚ, (dotp u v) ^ 2 ≤ dotp u u * dotp v v
  | [], v => by simp [dotp_nil_left]
  | _ :: _, [] => by simp [dotp_nil_right]
  | x :: u, y :: v => by
    rw [dotp_cons, dotp_cons, dotp_cons]
    have ih := dotp_sq_le u v
    have hu := dotp_self_nonneg u
    have hv := dotp_self_nonneg v
    have key : 2 * (x * y * dotp u v) ≤ x ^ 2 * dotp v v + y ^ 2 * dotp u u := by
      rcases le_or_lt (x * y * dotp u v) 0 with hneg | hpos
      · have hxb : 0 ≤ x ^ 2 * dotp v v := by positivity
        have hya : 0 ≤ y ^ 2 * dotp u u := by positivity
        linarith
      · have hsq : (2 * (x * y * dotp u v)) ^ 2 ≤ (x ^ 2 * dotp v v + y ^ 2 * dotp u u) ^ 2 := by
          have h2 : 4 * (x * y) ^ 2 * (dotp u v) ^ 2 ≤ 4 * (x * y) ^ 2 * (dotp u u * dotp v v) := by
            apply mul_le_mul_of_nonneg_left ih
            positivity
          nlinarith [sq_nonneg (x ^ 2 * dotp v v - y ^ 2 * dotp u u)]
        by_contra hlt
        push_neg at hlt
        have hq : 0 ≤ x ^ 2 * dotp v v + y ^ 2 * dotp u u := by positivity
        have hlt2 : (x ^ 2 * dotp v v + y ^ 2 * dotp u u) ^ 2 < (2 * (x * y * dotp u v)) ^ 2 :=
          pow_lt_pow_left₀ hlt hq two_ne_zero
        linarith
    nlinarith [key, ih]

theorem dotp_self_zero {u : List ℚ} (h : ∀ x ∈ u, x = 0) : dotp u u = 0 := by
  induction u with
  | nil => rfl
  | cons x u ih =>
    rw [dotp_cons, h x (List.mem_cons_self x u)]
    simp [ih fun y hy => h y (List.mem_cons_of_mem x hy)]

theorem scoreVal_of_degenerate {s : SimScore} (h : s.a = 0 ∨ s.b = 0) :
    scoreVal s = 0 := by
  rw [scoreVal, if_pos h]

theorem scoreVal_bounds_aux (s : SimScore) (ha : 0 ≤ s.a) (hb : 0 ≤ s.b)
    (hcs : s.d ^ 2 ≤ s.a * s.b) : -1 ≤ scoreVal s ∧ scoreVal s ≤ 1 := by
  by_cases h : s.a = 0 ∨ s.b = 0
  · rw [scoreVal_of_degenerate h]
    norm_num
  · push_neg at h
    obtain ⟨h1, h2⟩ := h
    have ha' : (0 : ℝ) < (s.a : ℝ) := by
      exact_mod_cast lt_of_le_of_ne ha (Ne.symm h1)
    have hb' : (0 : ℝ) < (s.b : ℝ) := by
      exact_mod_cast lt_of_le_of_ne hb (Ne.symm h2)
    have hA : (0 : ℝ) < Real.sqrt (s.a : ℝ) := Real.sqrt_pos.mpr ha'
    have hB : (0 : ℝ) < Real.sqrt (s.b : ℝ) := Real.sqrt_pos.mpr hb'
    have hcs' : ((s.d : ℝ)) ^ 2 ≤ (s.a : ℝ) * (s.b : ℝ) := by exact_mod_cast hcs
    have habs : |(s.d : ℝ)| ≤ Real.sqrt (s.a : ℝ) * Real.sqrt (s.b : ℝ) := by
      have h1' : |(s.d : ℝ)| = Real.sqrt ((s.d : ℝ) ^ 2) := (Real.sqrt_sq_eq_abs _).symm
      rw [h1', ← Real.sqrt_mul (le_of_lt ha')]
      exact Real.sqrt_le_sqrt hcs'
    have hval : scoreVal s = (s.d : ℝ) / (Real.sqrt (s.a : ℝ) * Real.sqrt (s.b : ℝ)) := by
      rw [scoreVal, if_neg]
      push_neg
      exact ⟨h1, h2⟩
    rw [hval]
    have hden : (0 : ℝ) < Real.sqrt (s.a : ℝ) * Real.sqrt (s.b : ℝ) := mul_pos hA hB
    constructor
    · rw [le_div_iff₀ hden]
      have := (abs_le.mp habs).1
      linarith
    · rw [div_le_one hden]
      exact (abs_le.mp habs).2

/-- C6: every similarity score the pipeline's cosine computation denotes
lies in `[-1, 1]`, and a pair with an all-zero feature vector on either
side takes the defined fallback value 0 (sklearn substitutes norm 1 for a
zero norm instead of raising). -/
theorem cosine_similarity_bounds (u v : List ℚ) :
    (-1 ≤ scoreVal (mkSim u v) ∧ scoreVal (mkSim u v) ≤ 1) ∧
    ((∀ x ∈ u, x = 0) → scoreVal (mkSim u v) = 0) ∧
    ((∀ x ∈ v, x = 0) → scoreVal (mkSim u v) = 0) := by
  refine ⟨?_, ?_, ?_⟩
  · exact scoreVal_bounds_aux (mkSim u v) (dotp_self_nonneg u) (dotp_self_nonneg v)
      (dotp_sq_le u v)
  · intro h
    exact scoreVal_of_degenerate (Or.inl (dotp_self_zero h))
  · intro h
    exact scoreVal_of_degenerate (Or.inr (dotp_self_zero h))

/-- Witness for `cosine_similarity_bounds` at concrete vectors: the
all-default profile vector (all zeros) scores 0 against a nonzero vector,
and a concrete nonzero pair scores within the bounds. -/
theorem cosine_similarity_bounds_witness :
    scoreVal (mkSim [0, 0] [1, 2]) = 0 ∧ -1 ≤ scoreVal (mkSim [1, 2] [2, 1]) :=
  ⟨(cosine_similarity_bounds [0, 0] [1, 2]).2.1 (by decide),
   ((cosine_similarity_bounds [1, 2] [2, 1]).1).1⟩

/-! ### Case folding -/

theorem lower_optStr (o : Option String) :
    to_lowercase (optStr o) = optStr (o.map strLower) := by
  cases o <;> rfl

theorem lower_optList (o : Option (List String)) :
    to_lowercase (optList o) = optList (o.map (List.map strLower)) := by
  cases o <;> rfl

theorem lower_optId (o : Option ℕ) : to_lowercase (optId o) = optId o := by
  cases o <;> rfl

theorem lower_str_cell (s : String) : to_lowercase (.str s) = .str (strLower s) := rfl

theorem lower_uuid_cell (n : ℕ) : to_lowercase (.uuid n) = .uuid n := rfl

theorem toRow_lower (p : Profile) :
    (p.toRow).map to_lowercase = (lowerProfile p).toRow := by
  simp only [Profile.toRow, lowerProfile, List.map_cons, List.map_nil,
    lower_optStr, lower_optList, lower_optId, lower_str_cell, lower_uuid_cell]

theorem lowerAll_toTable (ps : List Profile) :
    (toTable ps).lowerAll = toTable (ps.map lowerProfile) := by
  simp only [toTable, Table.lowerAll, List.map_map]
  refine congrArg (Table.mk profileCols) (List.map_congr_left fun p _hp => ?_)
  exact toRow_lower p

theorem mapLower_filter_replace {c c' : Profile} (pre post : List Profile)
    (p : Profile → Bool) (hlow : lowerProfile c = lowerProfile c') (hp : p c = p c') :
    ((pre ++ c :: post).filter p).map lowerProfile =
      ((pre ++ c' :: post).filter p).map lowerProfile := by
  rw [List.filter_append, List.filter_append, List.filter_cons, List.filter_cons, ← hp]
  by_cases h : p c
  · simp only [h, if_pos]
    simp [hlow]
  · simp [h]

theorem loweredTables_replace {c c' : Profile} (pre post : List Profile)
    (hlow : lowerProfile c = lowerProfile c') (hrole : c.role1 = c'.role1) :
    loweredTables (pre ++ c :: post) = loweredTables (pre ++ c' :: post) := by
  have hp : ∀ s, roleIs s c = roleIs s c' := fun s => by simp [roleIs, hrole]
  simp only [loweredTables, bucketize_eq, lowerAll_toTable]
  rw [mapLower_filter_replace pre post _ hlow (hp "data science"),
    mapLower_filter_replace pre post _ hlow (hp "back-end"),
    mapLower_filter_replace pre post _ hlow (hp "front-end"),
    mapLower_filter_replace pre post _ hlow (hp "business")]

/-- C2 counterexample: two candidate profiles identical except for the
casing of string fields (here the primary role `"Back-End"` vs
`"back-end"`, a tag `"P"` vs `"p"`) are NOT placed in the same bucket:
bucketing runs on the raw `role1` value before any case folding, so the
cased profile is dropped from every bucket while the lowercase one lands
in the back-end bucket. -/
theorem casefold_before_bucketing_false :
    lowerProfile candUncased = lowerProfile candCased ∧
    bucketize [candUncased] = ([], [candUncased], [], []) ∧
    bucketize [candCased] = ([], [], [], []) :=
  ⟨by decide, by decide, by decide⟩

/-- C2 (amended): case folding happens after bucketing, so bucketing
itself is case-sensitive in the primary role; but two candidates with
byte-identical `role1` that differ only in the casing of their other
string fields occupy the same bucket positions (their lowercased buckets
coincide) and the entire scoring stage — vectorized columns and
similarity scores — is identical (the requester is case-folded before
vectorization and goal extraction). -/
theorem casefold_after_bucketing (info c c' : Profile) (pre post : List Profile)
    (hlow : lowerProfile c = lowerProfile c') (hrole : c.role1 = c'.role1) :
    ((bucketize (pre ++ c :: post)).1.map lowerProfile =
        (bucketize (pre ++ c' :: post)).1.map lowerProfile) ∧
    ((bucketize (pre ++ c :: post)).2.1.map lowerProfile =
        (bucketize (pre ++ c' :: post)).2.1.map lowerProfile) ∧
    ((bucketize (pre ++ c :: post)).2.2.1.map lowerProfile =
        (bucketize (pre ++ c' :: post)).2.2.1.map lowerProfile) ∧
    ((bucketize (pre ++ c :: post)).2.2.2.map lowerProfile =
        (bucketize (pre ++ c' :: post)).2.2.2.map lowerProfile) ∧
    scoredStage info (pre ++ c :: post) = scoredStage info (pre ++ c' :: post) := by
  have hp : ∀ s, roleIs s c = roleIs s c' := fun s => by simp [roleIs, hrole]
  refine ⟨?_, ?_, ?_, ?_, ?_⟩
  · simp only [bucketize_eq]
    exact mapLower_filter_replace pre post _ hlow (hp _)
  · simp only [bucketize_eq]
    exact mapLower_filter_replace pre post _ hlow (hp _)
  · simp only [bucketize_eq]
    exact mapLower_filter_replace pre post _ hlow (hp _)
  · simp only [bucketize_eq]
    exact mapLower_filter_replace pre post _ hlow (hp _)
  · show scoredOfTables info (loweredTables _) = scoredOfTables info (loweredTables _)
    rw [loweredTables_replace pre post hlow hrole]

/-- Witness for `casefold_after_bucketing`: a candidate and its
tag/level-recased twin produce the same scoring stage against a fixed
requester. -/
theorem casefold_after_bucketing_witness :
    lowerProfile candBackEnd = lowerProfile candTagCased ∧
    scoredStage reqProfile [candBackEnd] = scoredStage reqProfile [candTagCased] :=
  ⟨by decide,
   (casefold_after_bucketing reqProfile candBackEnd candTagCased [] []
      (by decide) (by decide)).2.2.2.2⟩

/-! ### Concrete pipeline runs -/

/-- C1: an empty candidate list short-circuits to four empty lists, but a
non-empty candidate list in which no candidate's raw `role1` equals one of
the four canonical strings makes every bucket empty, every vectorized
table `None`, leaves `reference_columns` unassigned, and the call dies
with `UnboundLocalError` instead of returning four empty lists. -/
theorem no_canonical_role_unbound_error :
    (∀ info : Profile, get_recommendations info [] = .ok ([], [], [], [])) ∧
    get_recommendations reqProfile [candDesigner] = .error .unboundLocal :=
  ⟨fun _ => rfl, by decide⟩

/-- C3: the three known levels map to 1/2/3, but an unknown or absent
experience level maps to NaN (not to a 0 sentinel), and a candidate
carrying such a level makes the whole call raise from inside
`cosine_similarity` (sklearn rejects NaN). -/
theorem experience_map_nan_bug :
    expMapCell (.str "beginner") = .num 1 ∧
    expMapCell (.str "intermediate") = .num 2 ∧
    expMapCell (.str "expert") = .num 3 ∧
    expMapCell (.str "novice") = .na ∧
    expMapCell .na = .na ∧
    get_recommendations reqProfile [candNovice] = .error .valueError :=
  ⟨rfl, rfl, rfl, rfl, rfl, by decide⟩

theorem scoreVal_ne_of_cross_ne {s t : SimScore} (hsa : 0 < s.a) (hsb : 0 < s.b)
    (hta : 0 < t.a) (htb : 0 < t.b)
    (hne : s.d ^ 2 * (t.a * t.b) ≠ t.d ^ 2 * (s.a * s.b)) :
    scoreVal s ≠ scoreVal t := by
  intro heq
  have hsa' : (0 : ℝ) < (s.a : ℝ) := by exact_mod_cast hsa
  have hsb' : (0 : ℝ) < (s.b : ℝ) := by exact_mod_cast hsb
  have hta' : (0 : ℝ) < (t.a : ℝ) := by exact_mod_cast hta
  have htb' : (0 : ℝ) < (t.b : ℝ) := by exact_mod_cast htb
  have hs : scoreVal s = (s.d : ℝ) / (Real.sqrt (s.a : ℝ) * Real.sqrt (s.b : ℝ)) := by
    rw [scoreVal, if_neg]
    push_neg
    exact ⟨hsa.ne', hsb.ne'⟩
  have ht : scoreVal t = (t.d : ℝ) / (Real.sqrt (t.a : ℝ) * Real.sqrt (t.b : ℝ)) := by
    rw [scoreVal, if_neg]
    push_neg
    exact ⟨hta.ne', htb.ne'⟩
  rw [hs, ht, div_eq_div_iff (by positivity) (by positivity)] at heq
  have h2 := congrArg (fun x : ℝ => x ^ 2) heq
  simp only at h2
  have e1 : ((s.d : ℝ) * (Real.sqrt (t.a : ℝ) * Real.sqrt (t.b : ℝ))) ^ 2 =
      (s.d : ℝ) ^ 2 * (Real.sqrt (t.a : ℝ) ^ 2 * Real.sqrt (t.b : ℝ) ^ 2) := by ring
  have e2 : ((t.d : ℝ) * (Real.sqrt (s.a : ℝ) * Real.sqrt (s.b : ℝ))) ^ 2 =
      (t.d : ℝ) ^ 2 * (Real.sqrt (s.a : ℝ) ^ 2 * Real.sqrt (s.b : ℝ) ^ 2) := by ring
  rw [e1, e2, Real.sq_sqrt hsa'.le, Real.sq_sqrt hsb'.le, Real.sq_sqrt hta'.le,
    Real.sq_sqrt htb'.le] at h2
  apply hne
  exact_mod_cast h2

/-- C4: the goal weight is applied to the user vector once per non-empty
bucket (line 185 mutates `user_vector` inside the bucket loop), so the
back-end bucket's similarity score for the very same candidate differs
depending on whether a data-science candidate was processed first: with
goal "win hackathon" the requester's experience column is weighted 2.0 for
the first bucket but 4.0 for the second.  The two exact score
representations, and the real cosine values they denote, differ. -/
theorem goal_weight_mutation_bug :
    bucketSims (scoredStage reqProfile [candDataSci, candBackEnd]) "back-end" =
      some [⟨50, 66, 38⟩] ∧
    bucketSims (scoredStage reqProfile [candBackEnd]) "back-end" =
      some [⟨26, 18, 38⟩] ∧
    scoreVal ⟨50, 66, 38⟩ ≠ scoreVal ⟨26, 18, 38⟩ :=
  ⟨by decide, by decide,
   scoreVal_ne_of_cross_ne (by norm_num) (by norm_num) (by norm_num) (by norm_num)
     (by norm_num)⟩

/-- C8: on any non-empty candidate list the bucketing loop is exactly the
four order-preserving filters on the raw primary-role value, and a
candidate is a member of the bucket of its role — of exactly one bucket
when its `role1` is one of the four canonical strings, of none otherwise
(silently dropped). -/
theorem bucketizer_partition (l : List Profile) (hl : l ≠ []) :
    bucketize l =
      (l.filter (roleIs "data science"), l.filter (roleIs "back-end"),
       l.filter (roleIs "front-end"), l.filter (roleIs "business")) ∧
    ∀ c ∈ l,
      (c ∈ (bucketize l).1 ↔ c.role1 = some "data science") ∧
      (c ∈ (bucketize l).2.1 ↔ c.role1 = some "back-end") ∧
      (c ∈ (bucketize l).2.2.1 ↔ c.role1 = some "front-end") ∧
      (c ∈ (bucketize l).2.2.2 ↔ c.role1 = some "business") := by
  refine ⟨bucketize_eq l, ?_⟩
  intro c hc
  simp [bucketize_eq, List.mem_filter, roleIs, hc]

/-- Witness for `bucketizer_partition`: the back-end candidate lands in
the back-end bucket, the `"designer"` candidate in no bucket. -/
theorem bucketizer_partition_witness :
    candBackEnd ∈ (bucketize [candBackEnd, candDesigner]).2.1 ∧
    candDesigner ∉ (bucketize [candBackEnd, candDesigner]).2.1 := by
  have h := bucketizer_partition [candBackEnd, candDesigner] (by decide)
  constructor
  · exact ((h.2 candBackEnd (by decide)).2.1).mpr (by decide)
  · intro hmem
    exact absurd (((h.2 candDesigner (by decide)).2.1).mp hmem) (by decide)

/-! ### Success-path inversion lemmas -/

theorem mapME_nil_ok {f : α → Except ε β} {ys : List β}
    (h : mapME f [] = .ok ys) : ys = [] := by
  simpa [mapME] using h.symm

theorem mapME_cons_ok {f : α → Except ε β} {x : α} {xs : List α} {ys : List β}
    (h : mapME f (x :: xs) = .ok ys) :
    ∃ y ys', f x = .ok y ∧ mapME f xs = .ok ys' ∧ ys = y :: ys' := by
  unfold mapME at h
  rcases hx : f x with e | y
  · rw [hx] at h
    simp at h
  · rw [hx] at h
    rcases hxs : mapME f xs with e | ys'
    · rw [hxs] at h
      simp at h
    · rw [hxs] at h
      simp only [Except.ok.injEq] at h
      exact ⟨y, ys', rfl, rfl, h.symm⟩

theorem mapME_ok_four {f : α → Except ε β} {a b c d : α} {ys : List β}
    (h : mapME f [a, b, c, d] = .ok ys) :
    ∃ w x y z, f a = .ok w ∧ f b = .ok x ∧ f c = .ok y ∧ f d = .ok z ∧
      ys = [w, x, y, z] := by
  obtain ⟨w, ys1, hw, h1, rfl⟩ := mapME_cons_ok h
  obtain ⟨x, ys2, hx, h2, rfl⟩ := mapME_cons_ok h1
  obtain ⟨y, ys3, hy, h3, rfl⟩ := mapME_cons_ok h2
  obtain ⟨z, ys4, hz, h4, rfl⟩ := mapME_cons_ok h3
  rw [mapME_nil_ok h4]
  exact ⟨w, x, y, z, hw, hx, hy, hz, rfl⟩

theorem mapME_ok_of_forall {f : α → Except ε β} {g : α → β} :
    ∀ {xs : List α}, (∀ x ∈ xs, f x = .ok (g x)) → mapME f xs = .ok (xs.map g)
  | [], _ => rfl
  | x :: xs, h => by
    have hx := h x (List.mem_cons_self x xs)
    have hxs := mapME_ok_of_forall (fun y hy => h y (List.mem_cons_of_mem x hy))
    simp [mapME, hx, hxs]

theorem goCompare_nil_ok {w : ℚ} {uv : Table}
    {sc : List (String × Option (List ScoredRow))}
    (h : goCompare w uv [] = .ok sc) : sc = [] := by
  simpa [goCompare] using h.symm

theorem goCompare_cons_ok {w : ℚ} {uv : Table} {k : String} {t? : Option Table}
    {rest : List (String × Option Table)} {sc : List (String × Option (List ScoredRow))}
    (h : goCompare w uv ((k, t?) :: rest) = .ok sc) :
    ∃ s? uv' res, goCompare w uv' rest = .ok res ∧ sc = (k, s?) :: res ∧
      ((t? = none ∧ s? = none ∧ uv' = uv) ∨
       (∃ t rows, t? = some t ∧ s? = some rows ∧
         uv' = uv.mapCol "experienceLevel" (mulCell w) ∧
         scoreBucket uv' t w = .ok rows)) := by
  cases t? with
  | none =>
    unfold goCompare at h
    rcases hr : goCompare w uv rest with e | res
    · rw [hr] at h
      simp at h
    · rw [hr] at h
      simp only [Except.ok.injEq] at h
      exact ⟨none, uv, res, hr, h.symm, Or.inl ⟨rfl, rfl, rfl⟩⟩
  | some t =>
    unfold goCompare at h
    dsimp only at h
    rcases hs : scoreBucket (uv.mapCol "experienceLevel" (mulCell w)) t w with e | rows
    · rw [hs] at h
      simp at h
    · rw [hs] at h
      rcases hr : goCompare w (uv.mapCol "experienceLevel" (mulCell w)) rest with e | res
      · rw [hr] at h
        simp at h
      · rw [hr] at h
        simp only [Except.ok.injEq] at h
        exact ⟨some rows, uv.mapCol "experienceLevel" (mulCell w), res, hr, h.symm,
          Or.inr ⟨t, rows, rfl, rfl, rfl, hs⟩⟩

theorem scoredRowOf_ids (t : Table) (w : ℚ) (urow : List ℚ) (r : List Cell) :
    (scoredRowOf t w urow r).ids = idRow t r := rfl

theorem scoreBucket_ok_perm {uv t : Table} {w : ℚ} {rows : List ScoredRow}
    (h : scoreBucket uv t w = .ok rows) :
    ∃ urow, rows.Perm (t.rows.map (scoredRowOf t w urow)) := by
  unfold scoreBucket at h
  dsimp only at h
  split at h
  · refine ⟨((uv.dropCols id_columns).rows.getD 0 []).map getNum, ?_⟩
    simp only [Except.ok.injEq] at h
    subst h
    refine (List.perm_insertionSort _ _).trans ?_
    have h1 : ((t.dropCols id_columns).mapCol "experienceLevel" (mulCell w)).rows =
        t.rows.map (weightedRow t w) := by
      simp only [Table.dropCols, Table.mapCol, List.map_map]
      rfl
    rw [h1, List.zip_map', List.map_map]
    rfl
  · simp at h

/-! ### Output reconstruction -/

theorem filter_userId_unique : ∀ {B : List Profile},
    (B.map Profile.userId).Nodup → ∀ {p : Profile}, p ∈ B →
    B.filter (fun q => decide (Cell.uuid q.userId = Cell.uuid p.userId)) = [p] := by
  intro B
  induction B with
  | nil => intro _ p hp; cases hp
  | cons q B ih =>
    intro hnd p hp
    have hnd' := hnd
    rw [List.map_cons, List.nodup_cons] at hnd'
    obtain ⟨hq, hndB⟩ := hnd'
    rcases List.mem_cons.mp hp with rfl | hpB
    · rw [List.filter_cons]
      simp only [decide_eq_true_eq]
      rw [if_pos trivial]
      have hrest : B.filter (fun q' => decide (Cell.uuid q'.userId = Cell.uuid p.userId)) = [] := by
        rw [List.filter_eq_nil_iff]
        intro a ha
        simp only [decide_eq_true_eq, Cell.uuid.injEq]
        intro hEq
        exact hq (hEq ▸ List.mem_map_of_mem Profile.userId ha)
      rw [hrest]
    · rw [List.filter_cons]
      have hne : ¬ (Cell.uuid q.userId = Cell.uuid p.userId) := by
        simp only [Cell.uuid.injEq]
        intro hEq
        exact hq (hEq ▸ List.mem_map_of_mem Profile.userId hpB)
      simp only [decide_eq_true_eq]
      rw [if_neg hne]
      exact ih hndB hpB

theorem reconstructBucket_ok {B : List Profile} {rows : List ScoredRow}
    (hnd : (B.map Profile.userId).Nodup) (F : Profile → ScoredRow)
    (hperm : rows.Perm (B.map F))
    (hids : ∀ p ∈ B, (F p).ids.getD 1 .na = .uuid p.userId) :
    reconstructBucket B (some rows) = .ok (rows.map (recoverB B)) ∧
    (rows.map (recoverB B)).Perm B ∧
    (rows.map (recoverB B)).map (fun p => Cell.uuid p.userId) =
      rows.map (fun r => r.ids.getD 1 .na) := by
  have hrec : ∀ r ∈ rows, recoverB B r ∈ B ∧
      Cell.uuid (recoverB B r).userId = r.ids.getD 1 .na ∧
      reconstructRow B (r.ids.getD 1 .na) = .ok (recoverB B r) := by
    intro r hr
    have hrB : r ∈ B.map F := hperm.mem_iff.mp hr
    obtain ⟨p, hpB, rfl⟩ := List.mem_map.mp hrB
    have hfil := filter_userId_unique hnd hpB
    have hid := hids p hpB
    have hfil' : B.filter (fun q => decide (Cell.uuid q.userId = (F p).ids.getD 1 .na)) = [p] := by
      rw [hid]
      exact hfil
    refine ⟨?_, ?_, ?_⟩
    · rw [recoverB, hfil']
      exact hpB
    · rw [recoverB, hfil']
      rw [hid]
      rfl
    · rw [reconstructRow, hfil', recoverB, hfil']
      rfl
  refine ⟨?_, ?_, ?_⟩
  · exact mapME_ok_of_forall fun r hr => (hrec r hr).2.2
  · have h2 : (B.map F).map (recoverB B) = B := by
      rw [List.map_map]
      have : ∀ p ∈ B, recoverB B (F p) = p := by
        intro p hpB
        have hfil := filter_userId_unique hnd hpB
        rw [recoverB, hids p hpB, hfil]
        rfl
      calc B.map (recoverB B ∘ F) = B.map id := List.map_congr_left fun p hp => this p hp
      _ = B := List.map_id B
    have h3 : (List.map (recoverB B) (List.map F B)).Perm B := by rw [h2]
    exact (hperm.map (recoverB B)).trans h3
  · rw [List.map_map]
    apply List.map_congr_left
    intro r hr
    exact (hrec r hr).2.1

/-! ### Shape of the vectorized bucket tables -/

theorem vin_cols (B : List Profile) : (vin B).cols = vinCols := rfl

theorem vin_rows (B : List Profile) : (vin B).rows = B.map vinRow := by
  unfold vin
  rw [lowerAll_toTable]
  simp only [toTable, Table.dropCols, List.map_map]
  apply List.map_congr_left
  intro p _
  rfl

theorem teT_rows (B : List Profile) : (teT B).rows = B.map teRow := by
  unfold teT
  simp only [Table.mapCol, vin_rows, List.map_map]
  apply List.map_congr_left
  intro p _
  rfl

theorem vectorize_vin_shape {B : List Profile} {v? : Option Table}
    (hok : vectorize (vin B) = .ok v?) :
    (B = [] ∧ v? = none) ∨
    (B ≠ [] ∧ ∃ V : Table, v? = some V ∧
      V.rows = B.map (fun p => vecRow (teT B) (teRow p)) ∧
      "userId" ∈ V.cols ∧
      ∀ p : Profile,
        lookupCell (V.cols.zip (vecRow (teT B) (teRow p))) "userId" =
          some (.uuid p.userId)) := by
  by_cases hB : B = []
  · subst hB
    left
    refine ⟨rfl, ?_⟩
    have hnil : vectorize (vin []) = .ok none := rfl
    rw [hnil] at hok
    simpa using hok.symm
  · right
    refine ⟨hB, ?_⟩
    have hne : ¬ (vin B).rows = [] := by
      rw [vin_rows]
      simp [hB]
    rw [vectorize, if_neg hne] at hok
    dsimp only at hok
    split at hok
    · simp only [Except.ok.injEq] at hok
      refine ⟨_, hok.symm, ?_, ?_, ?_⟩
      · show ((vin B).mapCol "experienceLevel" expMapCell).rows.map
            (vecRow ((vin B).mapCol "experienceLevel" expMapCell)) = _
        rw [show (vin B).mapCol "experienceLevel" expMapCell = teT B from rfl, teT_rows,
          List.map_map]
        rfl
      · show "userId" ∈ (teT B).cols.filter (fun c => decide (c ∉ encodedAway)) ++
          dummyColsFor (teT B) ++ langColsFor (teT B)
        apply List.mem_append_left
        apply List.mem_append_left
        have : (teT B).cols.filter (fun c => decide (c ∉ encodedAway)) =
            ["id", "userId", "name", "experienceLevel", "role1"] := rfl
        rw [this]
        simp
      · intro p
        rfl
    · simp at hok

theorem idRow_getD1 (t : Table) (r : List Cell) :
    (idRow t r).getD 1 .na = (lookupCell (t.cols.zip r) "userId").getD .na := rfl

theorem aligned_userId_lookup {V : Table} {all : List String} (hmem : "userId" ∈ all)
    {r : List Cell} {n : ℕ} (hr : lookupCell (V.cols.zip r) "userId" = some (.uuid n)) :
    lookupCell (all.zip (all.map (fun c => (lookupCell (V.cols.zip r) c).getD (.num 0))))
      "userId" = some (.uuid n) := by
  rw [lookupCell_zip_map _ _ _ hmem, hr]
  rfl

/-- End-to-end per-bucket fact: on the success path, the reconstructed
output of one bucket is a permutation of the bucket's original profiles,
and its identifiers appear in exactly the order of the sorted score
table's `userId` column. -/
theorem bucket_output {B : List Profile} {v? : Option Table}
    {s? : Option (List ScoredRow)} {all : List String} {o : List Profile}
    (hnd : (B.map Profile.userId).Nodup)
    (hvec : vectorize (vin B) = .ok v?)
    (hall : ∀ V, v? = some V → "userId" ∈ all)
    (hsb : (v?.map (fun V => reindexFill V all) = none ∧ s? = none) ∨
           (∃ t rows uv' w, v?.map (fun V => reindexFill V all) = some t ∧
             s? = some rows ∧ scoreBucket uv' t w = .ok rows))
    (hrec : reconstructBucket B s? = .ok o) :
    o.Perm B ∧
    o.map (fun p => Cell.uuid p.userId) = (s?.getD []).map (fun r => r.ids.getD 1 .na) := by
  rcases hsb with ⟨ha, hs⟩ | ⟨t, rows, uv', w, hat, hst, hscore⟩
  · subst hs
    have ho : o = [] := by
      simpa [reconstructBucket, mapME] using hrec.symm
    subst ho
    have hvnone : v? = none := Option.map_eq_none'.mp ha
    rcases vectorize_vin_shape hvec with ⟨hB, _⟩ | ⟨_, V, hV, _⟩
    · subst hB
      exact ⟨List.Perm.refl _, rfl⟩
    · rw [hV] at hvnone
      cases hvnone
  · obtain ⟨V, hv, ht⟩ := Option.map_eq_some'.mp hat
    rcases vectorize_vin_shape hvec with ⟨hB, hnone⟩ | ⟨hBne, V', hV', hrows, hmemV, hlook⟩
    · rw [hnone] at hv
      cases hv
    · rw [hv] at hV'
      have hVV : V' = V := by
        injection hV' with h'
        exact h'.symm
      rw [hVV] at hrows hmemV hlook
      subst ht
      subst hst
      obtain ⟨urow, hpermRows⟩ := scoreBucket_ok_perm hscore
      have htrows : (reindexFill V all).rows = B.map (fun p =>
          all.map (fun c =>
            (lookupCell (V.cols.zip (vecRow (teT B) (teRow p))) c).getD (.num 0))) := by
        show V.rows.map _ = _
        rw [hrows, List.map_map]
        rfl
      rw [htrows, List.map_map] at hpermRows
      have hmem := hall V hv
      have hids : ∀ p ∈ B,
          ((scoredRowOf (reindexFill V all) w urow ∘ fun p =>
            all.map (fun c =>
              (lookupCell (V.cols.zip (vecRow (teT B) (teRow p))) c).getD (.num 0))) p).ids.getD
            1 .na = .uuid p.userId := by
        intro p _
        show (scoredRowOf (reindexFill V all) w urow _).ids.getD 1 .na = _
        rw [scoredRowOf_ids, idRow_getD1]
        have hl := aligned_userId_lookup hmem (hlook p)
        rw [show (reindexFill V all).cols = all from rfl, hl]
        rfl
      obtain ⟨heq, hperm2, hidseq⟩ := reconstructBucket_ok hnd _ hpermRows hids
      rw [heq] at hrec
      have ho : o = rows.map (recoverB B) := by
        simpa using hrec.symm
      subst ho
      exact ⟨hperm2, hidseq⟩

theorem scoredStage_nil (info : Profile) : ∃ e, scoredStage info [] = .error e := by
  unfold scoredStage scoredOfTables
  rw [show mapME vectorize ((loweredTables []).map (fun t => t.dropCols drop4)) =
    .ok [none, none, none, none] from rfl]
  dsimp only
  rcases hu : vectorize (userTable info) with e | uvO
  · exact ⟨e, rfl⟩
  · cases uvO with
    | none => exact ⟨.attributeError, rfl⟩
    | some uvT => exact ⟨.unboundLocal, rfl⟩

theorem userId_mem_of_vec {B : List Profile} {v? : Option Table}
    (hvec : vectorize (vin B) = .ok v?) {V : Table} (hV : v? = some V) :
    "userId" ∈ V.cols := by
  rcases vectorize_vin_shape hvec with ⟨_, hn⟩ | ⟨_, V', hV', _, hm, _⟩
  · rw [hn] at hV
    cases hV
  · rw [hV] at hV'
    injection hV' with h'
    rw [h']
    exact hm

theorem nodup_bucket {l : List Profile} (hnd : (l.map Profile.userId).Nodup)
    (p : Profile → Bool) : ((l.filter p).map Profile.userId).Nodup := by
  have hsub : List.Sublist ((l.filter p).map Profile.userId) (l.map Profile.userId) :=
    (List.filter_sublist l).map Profile.userId
  exact List.Nodup.sublist hsub hnd

/-- Master success-path theorem: when `get_recommendations` succeeds on a
candidate list with pairwise-distinct `userId`s, each of the four output
lists is a permutation of its original raw bucket — every full original
profile re-attached exactly once — and lists its profiles in exactly the
order of the bucket's sorted score table, matched by `userId`. -/
theorem get_recommendations_ok_spec {info : Profile} {l : List Profile}
    {out : List Profile × List Profile × List Profile × List Profile}
    (h : get_recommendations info l = .ok out)
    (hnd : (l.map Profile.userId).Nodup) :
    (out.1.Perm (l.filter (roleIs "data science")) ∧
     out.2.1.Perm (l.filter (roleIs "back-end")) ∧
     out.2.2.1.Perm (l.filter (roleIs "front-end")) ∧
     out.2.2.2.Perm (l.filter (roleIs "business"))) ∧
    (out.1.map (fun p => Cell.uuid p.userId) = bucketRowIds info l "data science" ∧
     out.2.1.map (fun p => Cell.uuid p.userId) = bucketRowIds info l "back-end" ∧
     out.2.2.1.map (fun p => Cell.uuid p.userId) = bucketRowIds info l "front-end" ∧
     out.2.2.2.map (fun p => Cell.uuid p.userId) = bucketRowIds info l "business") := by
  by_cases hl : l = []
  case pos =>
    subst hl
    have h0 : get_recommendations info [] = .ok ([], [], [], []) := rfl
    rw [h0] at h
    simp only [Except.ok.injEq] at h
    obtain rfl := h.symm
    obtain ⟨e, he⟩ := scoredStage_nil info
    refine ⟨⟨.refl _, .refl _, .refl _, .refl _⟩, ?_⟩
    unfold bucketRowIds
    rw [he]
    exact ⟨rfl, rfl, rfl, rfl⟩
  case neg =>
    rw [get_recommendations, if_neg hl] at h
    rcases hsc : scoredStage info l with e | sc
    · rw [hsc] at h
      simp at h
    · rw [hsc] at h
      dsimp only at h
      have hsc0 := hsc
      unfold scoredStage scoredOfTables at hsc
      rw [show (loweredTables l).map (fun t => t.dropCols drop4) =
        [vin (bucketize l).1, vin (bucketize l).2.1, vin (bucketize l).2.2.1,
         vin (bucketize l).2.2.2] from rfl] at hsc
      rcases hmv : mapME vectorize [vin (bucketize l).1, vin (bucketize l).2.1,
          vin (bucketize l).2.2.1, vin (bucketize l).2.2.2] with e | vts
      · rw [hmv] at hsc
        simp at hsc
      · rw [hmv] at hsc
        dsimp only at hsc
        obtain ⟨v1, v2, v3, v4, hv1, hv2, hv3, hv4, rfl⟩ := mapME_ok_four hmv
        rcases hu : vectorize (userTable info) with e | uvO
        · rw [hu] at hsc
          simp at hsc
        · rw [hu] at hsc
          cases uvO with
          | none => simp at hsc
          | some uvT =>
            dsimp only at hsc
            rcases hrc : refColsOf (align_columns [v1, v2, v3, v4]) with _ | refCols
            · rw [hrc] at hsc
              simp at hsc
            · rw [hrc] at hsc
              dsimp only at hsc
              unfold compare_cos_sim at hsc
              rw [show roleNames.zip (align_columns [v1, v2, v3, v4]) =
                [("data science", v1.map (fun V => reindexFill V
                     (sortDedup (colsConcat [v1, v2, v3, v4])))),
                 ("back-end", v2.map (fun V => reindexFill V
                     (sortDedup (colsConcat [v1, v2, v3, v4])))),
                 ("front-end", v3.map (fun V => reindexFill V
                     (sortDedup (colsConcat [v1, v2, v3, v4])))),
                 ("business", v4.map (fun V => reindexFill V
                     (sortDedup (colsConcat [v1, v2, v3, v4]))))] from rfl] at hsc
              obtain ⟨s1, uvB1, res1, hg1, rfl, hd1⟩ := goCompare_cons_ok hsc
              obtain ⟨s2, uvB2, res2, hg2, rfl, hd2⟩ := goCompare_cons_ok hg1
              obtain ⟨s3, uvB3, res3, hg3, rfl, hd3⟩ := goCompare_cons_ok hg2
              obtain ⟨s4, uvB4, res4, hg4, rfl, hd4⟩ := goCompare_cons_ok hg3
              obtain rfl := goCompare_nil_ok hg4
              rcases hmr : mapME
                  (fun pr => reconstructBucket (bucketFor pr.1 (bucketize l)) pr.2)
                  [("data science", s1), ("back-end", s2), ("front-end", s3),
                   ("business", s4)] with e | outs
              · rw [hmr] at h
                simp at h
              · rw [hmr] at h
                obtain ⟨o1, o2, o3, o4, ho1, ho2, ho3, ho4, rfl⟩ := mapME_ok_four hmr
                have hout : out = (o1, o2, o3, o4) := by
                  simpa using h.symm
                subst hout
                have hvec1 : vectorize (vin (l.filter (roleIs "data science"))) = .ok v1 := by
                  have h' := hv1
                  rw [bucketize_eq l] at h'
                  exact h'
                have hvec2 : vectorize (vin (l.filter (roleIs "back-end"))) = .ok v2 := by
                  have h' := hv2
                  rw [bucketize_eq l] at h'
                  exact h'
                have hvec3 : vectorize (vin (l.filter (roleIs "front-end"))) = .ok v3 := by
                  have h' := hv3
                  rw [bucketize_eq l] at h'
                  exact h'
                have hvec4 : vectorize (vin (l.filter (roleIs "business"))) = .ok v4 := by
                  have h' := hv4
                  rw [bucketize_eq l] at h'
                  exact h'
                have hrec1 : reconstructBucket (l.filter (roleIs "data science")) s1 = .ok o1 := by
                  have h' : reconstructBucket (bucketize l).1 s1 = .ok o1 := ho1
                  rw [bucketize_eq l] at h'
                  exact h'
                have hrec2 : reconstructBucket (l.filter (roleIs "back-end")) s2 = .ok o2 := by
                  have h' : reconstructBucket (bucketize l).2.1 s2 = .ok o2 := ho2
                  rw [bucketize_eq l] at h'
                  exact h'
                have hrec3 : reconstructBucket (l.filter (roleIs "front-end")) s3 = .ok o3 := by
                  have h' : reconstructBucket (bucketize l).2.2.1 s3 = .ok o3 := ho3
                  rw [bucketize_eq l] at h'
                  exact h'
                have hrec4 : reconstructBucket (l.filter (roleIs "business")) s4 = .ok o4 := by
                  have h' : reconstructBucket (bucketize l).2.2.2 s4 = .ok o4 := ho4
                  rw [bucketize_eq l] at h'
                  exact h'
                have hall1 : ∀ V, v1 = some V →
                    "userId" ∈ sortDedup (colsConcat [v1, v2, v3, v4]) := fun V hV =>
                  mem_sortDedup.mpr (mem_colsConcat.mpr
                    ⟨V, by rw [← hV]; exact List.mem_cons_self _ _,
                     userId_mem_of_vec hvec1 hV⟩)
                have hall2 : ∀ V, v2 = some V →
                    "userId" ∈ sortDedup (colsConcat [v1, v2, v3, v4]) := fun V hV =>
                  mem_sortDedup.mpr (mem_colsConcat.mpr
                    ⟨V, by rw [← hV]; simp,
                     userId_mem_of_vec hvec2 hV⟩)
                have hall3 : ∀ V, v3 = some V →
                    "userId" ∈ sortDedup (colsConcat [v1, v2, v3, v4]) := fun V hV =>
                  mem_sortDedup.mpr (mem_colsConcat.mpr
                    ⟨V, by rw [← hV]; simp,
                     userId_mem_of_vec hvec3 hV⟩)
                have hall4 : ∀ V, v4 = some V →
                    "userId" ∈ sortDedup (colsConcat [v1, v2, v3, v4]) := fun V hV =>
                  mem_sortDedup.mpr (mem_colsConcat.mpr
                    ⟨V, by rw [← hV]; simp,
                     userId_mem_of_vec hvec4 hV⟩)
                have hsb1 : (v1.map (fun V => reindexFill V
                      (sortDedup (colsConcat [v1, v2, v3, v4]))) = none ∧ s1 = none) ∨
                    (∃ t rows uv' w, v1.map (fun V => reindexFill V
                      (sortDedup (colsConcat [v1, v2, v3, v4]))) = some t ∧
                      s1 = some rows ∧ scoreBucket uv' t w = .ok rows) := by
                  rcases hd1 with ⟨ha, hs, _⟩ | ⟨t, rows, ha, hs, _, hscore⟩
                  · exact Or.inl ⟨ha, hs⟩
                  · exact Or.inr ⟨t, rows, _, _, ha, hs, hscore⟩
                have hsb2 : (v2.map (fun V => reindexFill V
                      (sortDedup (colsConcat [v1, v2, v3, v4]))) = none ∧ s2 = none) ∨
                    (∃ t rows uv' w, v2.map (fun V => reindexFill V
                      (sortDedup (colsConcat [v1, v2, v3, v4]))) = some t ∧
                      s2 = some rows ∧ scoreBucket uv' t w = .ok rows) := by
                  rcases hd2 with ⟨ha, hs, _⟩ | ⟨t, rows, ha, hs, _, hscore⟩
                  · exact Or.inl ⟨ha, hs⟩
                  · exact Or.inr ⟨t, rows, _, _, ha, hs, hscore⟩
                have hsb3 : (v3.map (fun V => reindexFill V
                      (sortDedup (colsConcat [v1, v2, v3, v4]))) = none ∧ s3 = none) ∨
                    (∃ t rows uv' w, v3.map (fun V => reindexFill V
                      (sortDedup (colsConcat [v1, v2, v3, v4]))) = some t ∧
                      s3 = some rows ∧ scoreBucket uv' t w = .ok rows) := by
                  rcases hd3 with ⟨ha, hs, _⟩ | ⟨t, rows, ha, hs, _, hscore⟩
                  · exact Or.inl ⟨ha, hs⟩
                  · exact Or.inr ⟨t, rows, _, _, ha, hs, hscore⟩
                have hsb4 : (v4.map (fun V => reindexFill V
                      (sortDedup (colsConcat [v1, v2, v3, v4]))) = none ∧ s4 = none) ∨
                    (∃ t rows uv' w, v4.map (fun V => reindexFill V
                      (sortDedup (colsConcat [v1, v2, v3, v4]))) = some t ∧
                      s4 = some rows ∧ scoreBucket uv' t w = .ok rows) := by
                  rcases hd4 with ⟨ha, hs, _⟩ | ⟨t, rows, ha, hs, _, hscore⟩
                  · exact Or.inl ⟨ha, hs⟩
                  · exact Or.inr ⟨t, rows, _, _, ha, hs, hscore⟩
                obtain ⟨hperm1, hids1⟩ :=
                  bucket_output (nodup_bucket hnd _) hvec1 hall1 hsb1 hrec1
                obtain ⟨hperm2, hids2⟩ :=
                  bucket_output (nodup_bucket hnd _) hvec2 hall2 hsb2 hrec2
                obtain ⟨hperm3, hids3⟩ :=
                  bucket_output (nodup_bucket hnd _) hvec3 hall3 hsb3 hrec3
                obtain ⟨hperm4, hids4⟩ :=
                  bucket_output (nodup_bucket hnd _) hvec4 hall4 hsb4 hrec4
                have hbr1 : bucketRowIds info l "data science" =
                    (s1.getD []).map (fun r => r.ids.getD 1 .na) := by
                  unfold bucketRowIds
                  rw [hsc0]
                  rfl
                have hbr2 : bucketRowIds info l "back-end" =
                    (s2.getD []).map (fun r => r.ids.getD 1 .na) := by
                  unfold bucketRowIds
                  rw [hsc0]
                  rfl
                have hbr3 : bucketRowIds info l "front-end" =
                    (s3.getD []).map (fun r => r.ids.getD 1 .na) := by
                  unfold bucketRowIds
                  rw [hsc0]
                  rfl
                have hbr4 : bucketRowIds info l "business" =
                    (s4.getD []).map (fun r => r.ids.getD 1 .na) := by
                  unfold bucketRowIds
                  rw [hsc0]
                  rfl
                exact ⟨⟨hperm1, hperm2, hperm3, hperm4⟩,
                  hbr1 ▸ hids1, hbr2 ▸ hids2, hbr3 ▸ hids3, hbr4 ▸ hids4⟩

/-- C9: on a successful run over candidates with unique identifiers, each
of the four output lists consists of the original full profiles (the raw,
pass-through-fields-intact records of that role bucket, each re-attached
exactly once — a permutation of the bucket), and the output order is
exactly the sorted score table's order: the `i`-th output profile's
`userId` equals the `userId` column of the `i`-th sorted row. -/
theorem ranker_output_reconstruction (info : Profile) (l : List Profile)
    (out : List Profile × List Profile × List Profile × List Profile)
    (h : get_recommendations info l = .ok out)
    (hnd : (l.map Profile.userId).Nodup) :
    (out.1.Perm (l.filter (roleIs "data science")) ∧
     out.2.1.Perm (l.filter (roleIs "back-end")) ∧
     out.2.2.1.Perm (l.filter (roleIs "front-end")) ∧
     out.2.2.2.Perm (l.filter (roleIs "business"))) ∧
    (out.1.map (fun p => Cell.uuid p.userId) = bucketRowIds info l "data science" ∧
     out.2.1.map (fun p => Cell.uuid p.userId) = bucketRowIds info l "back-end" ∧
     out.2.2.1.map (fun p => Cell.uuid p.userId) = bucketRowIds info l "front-end" ∧
     out.2.2.2.map (fun p => Cell.uuid p.userId) = bucketRowIds info l "business") :=
  get_recommendations_ok_spec h hnd

/-- Witness for `ranker_output_reconstruction`: a concrete successful run
in which the back-end bucket's output is exactly the original back-end
candidate with its pass-through fields. -/
theorem ranker_output_reconstruction_witness :
    get_recommendations reqProfile [candBackEnd, candDataSci] =
      .ok ([candDataSci], [candBackEnd], [], []) ∧
    ([candDataSci] : List Profile).Perm
      ([candBackEnd, candDataSci].filter (roleIs "data science")) :=
  ⟨by decide,
   (ranker_output_reconstruction reqProfile [candBackEnd, candDataSci]
      ([candDataSci], [candBackEnd], [], []) (by decide) (by decide)).1.1⟩

/-- C10: the core itself performs no self-exclusion — on this concrete run
the requester's own profile (same `userId`) is bucketed, scored and
returned in the back-end output of `get_recommendations` like any other
candidate — but the caller's filter (matches.py line 41) attribute-accesses
the plain dicts cos_sim returns, so `get_possible_matches` raises
`AttributeError` on exactly this run instead of returning the
existing-matches-filtered buckets; its only successful outcome is the four
empty lists of an empty candidate pool. -/
theorem no_self_exclusion_caller_crash :
    get_recommendations reqProfile [reqProfile, candDataSci] =
      .ok ([candDataSci], [reqProfile], [], []) ∧
    get_possible_matches reqProfile [reqProfile, candDataSci] [] =
      .error .attributeError ∧
    ∀ (info : Profile) (ex : List ℕ),
      get_possible_matches info [] ex = .ok ([], [], [], []) :=
  ⟨by decide, by decide, fun _ _ => rfl⟩
